import Mathlib

/-!
Shallow embedding of the smart-g-id backend.

Source of truth: `src/server.js` (first variant, the one all claim line
numbers point at), together with the schemas in `src/models/User.js`,
`src/models/Goat.js` (first variant) and `src/models/Image.js`.

Modelling conventions:
* MongoDB ObjectIds are `Nat`; every `Nat` is a well-formed identifier, so
  the `mongoose.Types.ObjectId.isValid` guards never fire.
* Dates (`Date.now()`, `addedAt`, `createdAt`, `uploadedAt`) are `Nat`
  epoch milliseconds, supplied to each handler as an explicit `now`.
* JS numbers carrying weights, heights and prices are `Int`.
* The three collections and the uploads directory are plain lists inside a
  `DB` record; the uploads directory is the list of blob filenames present
  on disk (`fs.existsSync` = list membership).
* `bcrypt` is modelled as an injective salted-hash encoding: `compare p h`
  succeeds exactly when `h = bcryptHash p`.
* The `trim` setters of the schemas are not modelled (all strings under
  consideration are their own trimmed form); the `lowercase` setter on
  `UserSchema.email` is modelled, on stored values and on query filters,
  as mongoose applies setters to both.
-/

/-- A JSON-ish value as it appears in a response object. -/
inductive Val where
  | s (v : String)
  | n (v : Int)
  | b (v : Bool)
  | arr (v : List String)
  deriving Repr, DecidableEq

/-- One document of the `users` collection (`src/models/User.js`). -/
structure UserDoc where
  _id : Nat
  email : String
  password : String
  farmName : String
  address : String
  createdAt : Nat
  deriving Repr, DecidableEq

/-- One document of the `goats` collection (`src/models/Goat.js`, first
variant: marketplace fields included; note the schema defines `addedAt`
and no `listedAt` path). -/
structure GoatDoc where
  _id : Nat
  owner : Nat
  rfidTag : String
  name : String
  gender : String
  breed : String
  birthDate : Nat
  weight : Int
  height : Int
  healthStatus : List String
  price : Int
  isForSale : Bool
  isSold : Bool
  addedAt : Nat
  deriving Repr, DecidableEq

/-- One document of the `images` collection (`src/models/Image.js`). -/
structure ImageDoc where
  goatId : Option Nat
  filename : String
  imageUrl : String
  uploadedAt : Nat
  deriving Repr, DecidableEq

/-- The whole persistent state: three collections plus the uploads
directory (list of blob filenames present on disk). -/
structure DB where
  users : List UserDoc
  goats : List GoatDoc
  images : List ImageDoc
  disk : List String
  deriving Repr, DecidableEq

/-- `bcrypt.hash` with a fixed salt, modelled as an injective encoding;
`bcrypt.compare p h` is `h = bcryptHash p`. -/
def bcryptHash (p : String) : String := "bcrypt$" ++ p

/-- `newUser.toObject()` / `user.toObject()`: the document as a field map. -/
def userToObject (u : UserDoc) : List (String × Val) :=
  [("_id", Val.n (Int.ofNat u._id)),
   ("email", Val.s u.email),
   ("password", Val.s u.password),
   ("farmName", Val.s u.farmName),
   ("address", Val.s u.address),
   ("createdAt", Val.n (Int.ofNat u.createdAt))]

/-- `delete obj.key` on a field map. -/
def deleteKey (k : String) (l : List (String × Val)) : List (String × Val) :=
  l.filter (fun p => !(p.1 == k))

/-- ASCII lowering of one character (the JS `toLowerCase` behaviour on
the ASCII range, which is what email addresses use). -/
def lowerChar (c : Char) : Char :=
  if ('A' ≤ c ∧ c ≤ 'Z') then Char.ofNat (c.toNat + 32) else c

/-- The `lowercase: true` setter of `UserSchema.email` (JS
`toLowerCase`). -/
def lowerString (s : String) : String := String.mk (s.toList.map lowerChar)

/-- `User.findOne({ email })`. The `lowercase: true` setter of
`UserSchema.email` is applied to the filter value; a filter value of
`undefined` is stripped by mongoose, so the query matches any document
and `findOne` returns the first one. -/
def userFindOne (users : List UserDoc) (email : Option String) : Option UserDoc :=
  match email with
  | some e => users.find? (fun u => u.email == lowerString e)
  | none => users.head?

/-- Request body of `POST /register`; each field may be absent. -/
structure RegisterBody where
  email : Option String
  password : Option String
  farmName : Option String
  address : Option String
  deriving Repr, DecidableEq

/-- Outcome of `POST /register`: an error response with HTTP status and
`error` message, or a 201 with the created user object. -/
inductive RegisterOut where
  | err (status : Nat) (error : String)
  | created (fields : List (String × Val))
  deriving Repr, DecidableEq

/-- HTTP status of a `POST /register` outcome. -/
def respStatus : RegisterOut → Nat
  | .err s _ => s
  | .created _ => 201

/-- `POST /register` (server.js lines 62-89). Duplicate-email check first;
`bcrypt.hash(undefined, salt)` rejects and is caught by the outer handler
(500 "Server error."), as is the mongoose required-field validation error
raised by `newUser.save()`. On success the stored email is lowercased and
the response is the user object with the password field deleted. -/
def register (db : DB) (now freshId : Nat) (body : RegisterBody) :
    DB × RegisterOut :=
  match userFindOne db.users body.email with
  | some _ => (db, .err 400 "Email already exists.")
  | none =>
    match body.password with
    | none => (db, .err 500 "Server error.")
    | some pw =>
      match body.email, body.farmName, body.address with
      | some e, some fn, some ad =>
        let u : UserDoc :=
          { _id := freshId, email := lowerString e, password := bcryptHash pw,
            farmName := fn, address := ad, createdAt := now }
        ({ db with users := db.users ++ [u] },
         .created (deleteKey "password" (userToObject u)))
      | _, _, _ => (db, .err 500 "Server error.")

/-- Request body of `POST /login`. -/
structure LoginBody where
  email : String
  password : String
  deriving Repr, DecidableEq

/-- Outcome of `POST /login`. -/
inductive LoginOut where
  | err (status : Nat) (error : String)
  | ok (user : List (String × Val))
  deriving Repr, DecidableEq

/-- `POST /login` (server.js lines 92-111). -/
def login (db : DB) (body : LoginBody) : LoginOut :=
  match userFindOne db.users (some body.email) with
  | none => .err 400 "User not found"
  | some u =>
    if bcryptHash body.password == u.password then
      .ok (deleteKey "password" (userToObject u))
    else
      .err 400 "Invalid credentials"

/-- `GET /api/farms` projection `select("farmName address email _id
profileImage")` (server.js lines 454-465); `profileImage` has no schema
path, so only the four existing fields appear. -/
def farmPublic (u : UserDoc) : List (String × Val) :=
  [("_id", Val.n (Int.ofNat u._id)),
   ("farmName", Val.s u.farmName),
   ("address", Val.s u.address),
   ("email", Val.s u.email)]

/-- `GET /api/farms` (server.js lines 454-465). -/
def apiFarms (db : DB) : List (List (String × Val)) :=
  db.users.map farmPublic

/-- `GET /api/farms/:id` (server.js lines 598-619): find by id, exclude
the password via `select("-password")`. -/
def apiFarm (db : DB) (uid : Nat) : Except (Nat × String) (List (String × Val)) :=
  match db.users.find? (fun u => u._id == uid) with
  | none => .error (404, "Farm not found")
  | some u => .ok (deleteKey "password" (userToObject u))

/-- Request body of `POST /add-goat` (server.js lines 114-224). The claims
under verification always carry the full field set; `healthStatus` comes
from the body (the schema default only matters when the field is absent). -/
structure AddGoatBody where
  owner : Nat
  rfidTag : String
  name : String
  gender : String
  breed : String
  birthDate : Nat
  weight : Int
  height : Int
  healthStatus : List String
  photos : List String
  deriving Repr, DecidableEq

/-- Replace the first element satisfying `p` by `x` (what a mongo update
does to the matched document, in place). -/
def replaceFirst {α : Type} (p : α → Bool) (x : α) : List α → List α
  | [] => []
  | y :: ys => if p y then x :: ys else y :: replaceFirst p x ys

/-- Remove the first element satisfying `p` (what `findByIdAndDelete`
does). -/
def removeFirst {α : Type} (p : α → Bool) : List α → List α
  | [] => []
  | y :: ys => if p y then ys else y :: removeFirst p ys

/-- The `$set` document of the `/add-goat` upsert (server.js lines
135-147), applied to an existing goat: the eight mutable fields from the
request plus `addedAt: Date.now()`. -/
def goatSetFields (g : GoatDoc) (body : AddGoatBody) (now : Nat) : GoatDoc :=
  { g with owner := body.owner, name := body.name, gender := body.gender,
           breed := body.breed, birthDate := body.birthDate,
           weight := body.weight, height := body.height,
           healthStatus := body.healthStatus, addedAt := now }

/-- `Goat.findOneAndUpdate({ rfidTag }, { $set: ... }, { new: true,
upsert: true, setDefaultsOnInsert: true })` (server.js lines 133-149).
If a goat with the tag exists, the first match is updated in place;
otherwise a new document is inserted, taking the tag from the filter,
the `$set` fields, and the schema defaults for `price`, `isForSale`
and `isSold`. Returns the new collection and the (post-update) document. -/
def upsertGoat (goats : List GoatDoc) (now freshId : Nat) (body : AddGoatBody) :
    List GoatDoc × GoatDoc :=
  match goats.find? (fun g => g.rfidTag == body.rfidTag) with
  | some g0 =>
    let g1 := goatSetFields g0 body now
    (replaceFirst (fun g => g.rfidTag == body.rfidTag) g1 goats, g1)
  | none =>
    let g1 : GoatDoc :=
      { _id := freshId, owner := body.owner, rfidTag := body.rfidTag,
        name := body.name, gender := body.gender, breed := body.breed,
        birthDate := body.birthDate, weight := body.weight,
        height := body.height, healthStatus := body.healthStatus,
        price := 0, isForSale := false, isSold := false, addedAt := now }
    (goats ++ [g1], g1)

/-- `fs.writeFileSync`: the named blob is now present on disk
(overwriting any previous content). -/
def diskWrite (disk : List String) (f : String) : List String :=
  if f ∈ disk then disk else disk ++ [f]

/-- `fs.unlinkSync` guarded by `fs.existsSync`: the named blob is no
longer present on disk. -/
def diskDelete (disk : List String) (f : String) : List String :=
  disk.filter (fun g => !(g == f))

/-- The cleanup pass of `/add-goat` (server.js lines 157-182): enumerate
the Image records of the goat, delete each corresponding blob that exists
(per-file errors are swallowed), then `Image.deleteMany({ goatId })`. -/
def cleanupImages (db : DB) (gid : Nat) : DB :=
  let old := db.images.filter (fun im => im.goatId == some gid)
  { db with
    disk := old.foldl (fun d im => diskDelete d im.filename) db.disk,
    images := db.images.filter (fun im => !(im.goatId == some gid)) }

/-- Characters admitted by the media-type group `[A-Za-z-+\/]` of the
regex on server.js line 189. -/
def mediaChar (c : Char) : Bool :=
  c.isAlpha || c == '-' || c == '+' || c == '/'

/-- `base64String.match(/^data:([A-Za-z-+\/]+);base64,(.+)$/)` (server.js
lines 188-190), as (media type, payload) on success. The media-type group
is a maximal nonempty run of `mediaChar`s (the character after it must be
the literal `;`, which is outside the class, so no backtracking succeeds
otherwise); the payload is the nonempty rest. Line-break corner cases of
`.` and `$` are not modelled (payloads are base64 text). -/
def dataUrlMatch (s : String) : Option (String × String) :=
  let cs := s.toList
  if cs.take 5 = "data:".toList then
    let rest := cs.drop 5
    let mt := rest.takeWhile mediaChar
    let rest2 := rest.dropWhile mediaChar
    if mt ≠ [] ∧ rest2.take 8 = ";base64,".toList then
      let payload := rest2.drop 8
      if payload ≠ [] then some (String.mk mt, String.mk payload) else none
    else none
  else none

/-- Blob filename for the batch entry at `index` (server.js line 194). -/
def mkFilename (now gid index : Nat) : String :=
  toString now ++ "_" ++ toString gid ++ "_img" ++ toString index ++ ".jpg"

/-- The Image record created for a well-formed entry at `index` (server.js
lines 202-206): relative URL `uploads/<filename>`. -/
def mkImageDoc (now gid index : Nat) : ImageDoc :=
  { goatId := some gid, filename := mkFilename now gid index,
    imageUrl := "uploads/" ++ mkFilename now gid index, uploadedAt := now }

/-- The save pass of `/add-goat` (server.js lines 187-211), entry at
position `i` onwards: a non-matching entry is skipped (`return null`);
a matching one has its blob written and its Image record saved. The
`async` map callbacks run their synchronous bodies in index order and
`Promise.all` awaits them all; a single state thread in index order is
the sequential semantics of that. -/
def savePhotos (gid now : Nat) : DB → Nat → List String → DB
  | db, _, [] => db
  | db, i, p :: ps =>
    match dataUrlMatch p with
    | none => savePhotos gid now db (i + 1) ps
    | some _ =>
      savePhotos gid now
        { db with disk := diskWrite db.disk (mkFilename now gid i),
                  images := db.images ++ [mkImageDoc now gid i] }
        (i + 1) ps

/-- Specification companion of `savePhotos`: the Image records it creates
for the entries from position `i` on. -/
def newRecords (gid now : Nat) : Nat → List String → List ImageDoc
  | _, [] => []
  | i, p :: ps =>
    match dataUrlMatch p with
    | none => newRecords gid now (i + 1) ps
    | some _ => mkImageDoc now gid i :: newRecords gid now (i + 1) ps

/-- Response of `POST /add-goat` (it only fails on store or filesystem
exceptions, which are outside this model). -/
structure AddGoatOut where
  status : Nat
  message : String
  goat : GoatDoc
  deriving Repr, DecidableEq

/-- `POST /add-goat` (server.js lines 114-224): upsert by tag, then, when
the request carries a non-empty photo batch, cleanup of the existing
images of the goat followed by the save pass for the new batch. -/
def addGoat (db : DB) (now freshId : Nat) (body : AddGoatBody) :
    DB × AddGoatOut :=
  let ug := upsertGoat db.goats now freshId body
  let db1 : DB := { db with goats := ug.1 }
  let db2 :=
    if body.photos.isEmpty then db1
    else savePhotos ug.2._id now (cleanupImages db1 ug.2._id) 0 body.photos
  (db2, { status := 200, message := "Goat record updated successfully!",
          goat := ug.2 })

/-- Response shape of `GET /get-goat/:id` (server.js lines 263-351): the
projected goat fields, the image URL list, and the denormalized owner
snapshot (absent when the owner lookup matched nothing). `listedAt` and
`description` are projected but no goat document has those paths. -/
structure GoatProfile where
  name : String
  breed : String
  price : Int
  gender : String
  weight : Int
  height : Int
  birthDate : Nat
  healthStatus : List String
  rfidTag : String
  isForSale : Bool
  images : List String
  ownerFarmName : Option String
  ownerAddress : Option String
  ownerEmail : Option String
  deriving Repr, DecidableEq

/-- `GET /get-goat/:id` (server.js lines 263-351). With `Nat` identifiers
the `ObjectId.isValid` guard never fires; the aggregation matches `_id`,
joins owner and images, and 404s when no goat matched. -/
def getGoat (db : DB) (gid : Nat) : Except (Nat × String) GoatProfile :=
  match db.goats.find? (fun g => g._id == gid) with
  | none => .error (404, "Goat not found")
  | some g =>
    let ownr := db.users.find? (fun u => u._id == g.owner)
    .ok { name := g.name, breed := g.breed, price := g.price,
          gender := g.gender, weight := g.weight, height := g.height,
          birthDate := g.birthDate, healthStatus := g.healthStatus,
          rfidTag := g.rfidTag, isForSale := g.isForSale,
          images := (db.images.filter
            (fun im => im.goatId == some g._id)).map (fun im => im.imageUrl),
          ownerFarmName := ownr.map (fun u => u.farmName),
          ownerAddress := ownr.map (fun u => u.address),
          ownerEmail := ownr.map (fun u => u.email) }

/-- Request body of `PUT /update-goat/:id`: any subset of the goat schema
paths (mongoose strict mode drops paths outside the schema; validators do
not run on `findByIdAndUpdate` by default, so any castable value passes). -/
structure UpdateGoatBody where
  owner : Option Nat := none
  rfidTag : Option String := none
  name : Option String := none
  gender : Option String := none
  breed : Option String := none
  birthDate : Option Nat := none
  weight : Option Int := none
  height : Option Int := none
  healthStatus : Option (List String) := none
  price : Option Int := none
  isForSale : Option Bool := none
  isSold : Option Bool := none
  addedAt : Option Nat := none
  deriving Repr, DecidableEq

/-- Apply the update document: every path present in the body overwrites
the stored value. -/
def applyUpdate (g : GoatDoc) (b : UpdateGoatBody) : GoatDoc :=
  { _id := g._id,
    owner := b.owner.getD g.owner,
    rfidTag := b.rfidTag.getD g.rfidTag,
    name := b.name.getD g.name,
    gender := b.gender.getD g.gender,
    breed := b.breed.getD g.breed,
    birthDate := b.birthDate.getD g.birthDate,
    weight := b.weight.getD g.weight,
    height := b.height.getD g.height,
    healthStatus := b.healthStatus.getD g.healthStatus,
    price := b.price.getD g.price,
    isForSale := b.isForSale.getD g.isForSale,
    isSold := b.isSold.getD g.isSold,
    addedAt := b.addedAt.getD g.addedAt }

/-- `PUT /update-goat/:id` (server.js lines 355-373):
`Goat.findByIdAndUpdate(id, req.body, { new: true })`, 404 when the id
matches no goat. -/
def updateGoat (db : DB) (gid : Nat) (b : UpdateGoatBody) :
    DB × Except (Nat × String) GoatDoc :=
  match db.goats.find? (fun g => g._id == gid) with
  | none => (db, .error (404, "Goat not found"))
  | some g0 =>
    let g1 := applyUpdate g0 b
    ({ db with goats := replaceFirst (fun g => g._id == gid) g1 db.goats },
     .ok g1)

/-- `DELETE /delete-goat/:id` (server.js lines 437-452): delete the goat
(no existence check), cascade-delete its Image records, and answer with
the fixed success message in every case. -/
def deleteGoat (db : DB) (gid : Nat) : DB × (Nat × String) :=
  ({ db with goats := removeFirst (fun g => g._id == gid) db.goats,
             images := db.images.filter (fun im => !(im.goatId == some gid)) },
   (200, "Goat deleted successfully"))

/-- The `listedAt` sort key of the marketplace `$sort` (server.js line
383): the Goat schema defines `addedAt` and no `listedAt` path, and
strict mode keeps the path out of every update, so the key is absent
(null) on every document. -/
def goatListedAt (_g : GoatDoc) : Option Nat := none

/-- Insert for a stable descending sort: `x` goes in front of the first
element whose key is not strictly greater, so ties keep their original
relative order. -/
def insertDesc (key : GoatDoc → Option Nat) (x : GoatDoc) :
    List GoatDoc → List GoatDoc
  | [] => [x]
  | y :: ys =>
    if (match key y, key x with
        | some a, some b => decide (b < a)
        | some _, none => true
        | _, _ => false) then
      y :: insertDesc key x ys
    else
      x :: y :: ys

/-- Stable descending sort by an optional key, null sorting last
(mongo `$sort: { k: -1 }` with a deterministic order on ties). -/
def sortByKeyDesc (key : GoatDoc → Option Nat) : List GoatDoc → List GoatDoc
  | [] => []
  | x :: xs => insertDesc key x (sortByKeyDesc key xs)

/-- One entry of the marketplace feed: the goat document (the projection
only strips the join arrays) plus the denormalized annotations. -/
structure FeedEntry where
  goat : GoatDoc
  mainPhoto : Option String
  farmName : Option String
  ownerAddress : Option String
  deriving Repr, DecidableEq

/-- `GET /api/goats` (server.js lines 376-434; the second registration at
line 467 is shadowed by this one) and `GET /goats` (lines 535-595), which
differ only in the owner-id coercion and in projection cosmetics: keep the
goats with `isForSale`, sort descending by the (always absent) `listedAt`
key, and annotate each with the first joined image URL and the owning
farm fields. -/
def marketFeed (db : DB) : List FeedEntry :=
  let sorted := sortByKeyDesc goatListedAt (db.goats.filter (fun g => g.isForSale))
  sorted.map (fun g =>
    let ownr := db.users.find? (fun u => u._id == g.owner)
    { goat := g,
      mainPhoto := (db.images.find?
        (fun im => im.goatId == some g._id)).map (fun im => im.imageUrl),
      farmName := ownr.map (fun u => u.farmName),
      ownerAddress := ownr.map (fun u => u.address) })

/-! ### Helper lemmas -/

theorem deleteKey_not_mem (k : String) (l : List (String × Val)) :
    k ∉ (deleteKey k l).map Prod.fst := by
  intro h
  rcases List.mem_map.mp h with ⟨p, hp, hk⟩
  rcases List.mem_filter.mp hp with ⟨_, hcond⟩
  simp [hk] at hcond

theorem mem_diskWrite (d : List String) (f x : String) :
    x ∈ diskWrite d f ↔ x ∈ d ∨ x = f := by
  unfold diskWrite
  split
  · rename_i h
    exact ⟨Or.inl, fun h2 => h2.elim id (fun hx => hx ▸ h)⟩
  · simp

theorem mem_diskDelete (d : List String) (f x : String) :
    x ∈ diskDelete d f ↔ x ∈ d ∧ x ≠ f := by
  simp [diskDelete, List.mem_filter]

theorem mem_foldl_diskDelete (x : String) :
    ∀ (l : List ImageDoc) (d : List String),
      x ∈ l.foldl (fun acc im => diskDelete acc im.filename) d ↔
        x ∈ d ∧ ∀ im ∈ l, x ≠ im.filename := by
  intro l
  induction l with
  | nil => simp
  | cons im l ih =>
    intro d
    rw [List.foldl_cons, ih, mem_diskDelete]
    constructor
    · rintro ⟨⟨hd, hne⟩, hall⟩
      exact ⟨hd, by
        intro im2 him2
        rcases List.mem_cons.mp him2 with h | h
        · exact h ▸ hne
        · exact hall im2 h⟩
    · rintro ⟨hd, hall⟩
      exact ⟨⟨hd, hall im (List.mem_cons_self _ _)⟩,
        fun im2 him2 => hall im2 (List.mem_cons_of_mem _ him2)⟩

theorem replaceFirst_filter {α : Type} (p : α → Bool) (x : α)
    (hx : p x = true) :
    ∀ l : List α, (l.filter p).length ≤ 1 → (l.find? p).isSome →
      (replaceFirst p x l).filter p = [x] := by
  intro l
  induction l with
  | nil => intro _ h; simp at h
  | cons y ys ih =>
    intro hlen hfind
    by_cases hy : p y
    · have hys : ys.filter p = [] := by
        rw [List.filter_cons_of_pos hy] at hlen
        simp only [List.length_cons] at hlen
        exact List.length_eq_zero.mp (by omega)
      simp [replaceFirst, hy, List.filter_cons_of_pos hx, hys]
    · have hy2 : p y = false := by simpa using hy
      rw [List.filter_cons_of_neg (by simp [hy2])] at hlen
      rw [List.find?_cons_of_neg _ (by simp [hy2])] at hfind
      simp only [replaceFirst, hy2, if_neg, Bool.false_eq_true,
        not_false_eq_true]
      rw [List.filter_cons_of_neg (by simp [hy2])]
      exact ih hlen hfind

theorem filter_append_singleton_of_none {α : Type} (p : α → Bool) (x : α)
    (hx : p x = true) (l : List α) (hnone : l.find? p = none) :
    (l ++ [x]).filter p = [x] := by
  rw [List.filter_append]
  have : l.filter p = [] := by
    rw [List.filter_eq_nil_iff]
    intro a ha
    exact fun hpa => (by simp [List.find?_eq_none.mp hnone a ha] : ¬ p a = true) hpa
  simp [this, hx]

theorem removeFirst_find?_none {α : Type} (p : α → Bool) :
    ∀ l : List α, (l.filter p).length ≤ 1 →
      ((removeFirst p l).find? p) = none := by
  intro l
  induction l with
  | nil => intro _; rfl
  | cons y ys ih =>
    intro hlen
    by_cases hy : p y
    · have hys : ys.filter p = [] := by
        rw [List.filter_cons_of_pos hy] at hlen
        simp only [List.length_cons] at hlen
        exact List.length_eq_zero.mp (by omega)
      simp only [removeFirst, hy, if_pos]
      rw [List.find?_eq_none]
      intro a ha
      have := (List.filter_eq_nil_iff.mp hys) a ha
      simpa using this
    · have hy2 : p y = false := by simpa using hy
      rw [List.filter_cons_of_neg (by simp [hy2])] at hlen
      simp only [removeFirst, hy2, Bool.false_eq_true, if_neg,
        not_false_eq_true]
      rw [List.find?_cons_of_neg _ (by simp [hy2])]
      exact ih hlen

theorem savePhotos_goats (gid now : Nat) :
    ∀ (ps : List String) (db : DB) (i : Nat),
      (savePhotos gid now db i ps).goats = db.goats := by
  intro ps
  induction ps with
  | nil => intro db i; rfl
  | cons p ps ih =>
    intro db i
    simp only [savePhotos]
    cases dataUrlMatch p with
    | none => exact ih _ _
    | some v => exact ih _ _

theorem savePhotos_users (gid now : Nat) :
    ∀ (ps : List String) (db : DB) (i : Nat),
      (savePhotos gid now db i ps).users = db.users := by
  intro ps
  induction ps with
  | nil => intro db i; rfl
  | cons p ps ih =>
    intro db i
    simp only [savePhotos]
    cases dataUrlMatch p with
    | none => exact ih _ _
    | some v => exact ih _ _

theorem savePhotos_images (gid now : Nat) :
    ∀ (ps : List String) (db : DB) (i : Nat),
      (savePhotos gid now db i ps).images
        = db.images ++ newRecords gid now i ps := by
  intro ps
  induction ps with
  | nil => intro db i; simp [savePhotos, newRecords]
  | cons p ps ih =>
    intro db i
    simp only [savePhotos, newRecords]
    cases dataUrlMatch p with
    | none => exact ih _ _
    | some v => rw [ih]; simp

theorem savePhotos_disk_mem (gid now : Nat) :
    ∀ (ps : List String) (db : DB) (i : Nat) (x : String),
      x ∈ (savePhotos gid now db i ps).disk ↔
        x ∈ db.disk ∨ x ∈ (newRecords gid now i ps).map
          (fun r => r.filename) := by
  intro ps
  induction ps with
  | nil => intro db i x; simp [savePhotos, newRecords]
  | cons p ps ih =>
    intro db i x
    simp only [savePhotos, newRecords]
    cases dataUrlMatch p with
    | none => exact ih _ _ _
    | some v =>
      rw [ih]
      simp only [mem_diskWrite, List.map_cons, List.mem_cons]
      constructor
      · rintro ((h | h) | h)
        · exact Or.inl h
        · exact Or.inr (Or.inl (by simpa [mkImageDoc] using h))
        · exact Or.inr (Or.inr h)
      · rintro (h | h | h)
        · exact Or.inl (Or.inl h)
        · exact Or.inl (Or.inr (by simpa [mkImageDoc] using h))
        · exact Or.inr h

theorem newRecords_goatId (gid now : Nat) :
    ∀ (ps : List String) (i : Nat),
      ∀ r ∈ newRecords gid now i ps, r.goatId = some gid := by
  intro ps
  induction ps with
  | nil => intro i r hr; simp [newRecords] at hr
  | cons p ps ih =>
    intro i r hr
    simp only [newRecords] at hr
    cases h : dataUrlMatch p with
    | none => rw [h] at hr; exact ih _ r hr
    | some v =>
      rw [h] at hr
      rcases List.mem_cons.mp hr with h2 | h2
      · rw [h2]; rfl
      · exact ih _ r h2

theorem newRecords_length (gid now : Nat) :
    ∀ (ps : List String) (i : Nat),
      (newRecords gid now i ps).length
        = ps.countP (fun p => (dataUrlMatch p).isSome) := by
  intro ps
  induction ps with
  | nil => intro i; rfl
  | cons p ps ih =>
    intro i
    simp only [newRecords, List.countP_cons]
    cases h : dataUrlMatch p with
    | none => simp [h, ih]
    | some v => simp [h, ih]

theorem newRecords_all_mem (gid now : Nat) :
    ∀ (ps : List String) (i j : Nat) (hj : j < ps.length),
      (dataUrlMatch (ps.get ⟨j, hj⟩)).isSome →
        mkImageDoc now gid (i + j) ∈ newRecords gid now i ps := by
  intro ps
  induction ps with
  | nil => intro i j hj; simp at hj
  | cons p ps ih =>
    intro i j hj hwf
    cases j with
    | zero =>
      simp only [List.get] at hwf
      rcases Option.isSome_iff_exists.mp hwf with ⟨v, hv⟩
      simp only [newRecords, hv]
      exact List.mem_cons_self _ _
    | succ j =>
      simp only [List.get] at hwf
      have := ih (i + 1) j (by simpa using Nat.lt_of_succ_lt_succ hj) hwf
      have harith : i + 1 + j = i + (j + 1) := by omega
      rw [harith] at this
      simp only [newRecords]
      cases h : dataUrlMatch p with
      | none => exact this
      | some v => exact List.mem_cons_of_mem _ this

theorem mem_newRecords (gid now : Nat) :
    ∀ (ps : List String) (i : Nat) (r : ImageDoc),
      r ∈ newRecords gid now i ps →
        ∃ j, ∃ hj : j < ps.length,
          (dataUrlMatch (ps.get ⟨j, hj⟩)).isSome
            ∧ r = mkImageDoc now gid (i + j) := by
  intro ps
  induction ps with
  | nil => intro i r hr; simp [newRecords] at hr
  | cons p ps ih =>
    intro i r hr
    simp only [newRecords] at hr
    cases h : dataUrlMatch p with
    | none =>
      rw [h] at hr
      rcases ih (i + 1) r hr with ⟨j, hj, hwf, hr2⟩
      exact ⟨j + 1, by simpa using Nat.succ_lt_succ hj,
        by simpa using hwf, by rw [hr2]; congr 1; omega⟩
    | some v =>
      rw [h] at hr
      rcases List.mem_cons.mp hr with h2 | h2
      · exact ⟨0, by simp, by simp [h], by simpa using h2⟩
      · rcases ih (i + 1) r h2 with ⟨j, hj, hwf, hr2⟩
        exact ⟨j + 1, by simpa using Nat.succ_lt_succ hj,
          by simpa using hwf, by rw [hr2]; congr 1; omega⟩

theorem cleanupImages_goats (db : DB) (gid : Nat) :
    (cleanupImages db gid).goats = db.goats := rfl

theorem cleanupImages_images (db : DB) (gid : Nat) :
    (cleanupImages db gid).images
      = db.images.filter (fun im => !(im.goatId == some gid)) := rfl

theorem cleanupImages_disk_mem (db : DB) (gid : Nat) (x : String) :
    x ∈ (cleanupImages db gid).disk ↔
      x ∈ db.disk ∧ ∀ im ∈ db.images, im.goatId = some gid
        → x ≠ im.filename := by
  show x ∈ (db.images.filter (fun im => im.goatId == some gid)).foldl
      (fun d im => diskDelete d im.filename) db.disk ↔ _
  rw [mem_foldl_diskDelete]
  constructor
  · rintro ⟨hd, hall⟩
    refine ⟨hd, fun im him hg => ?_⟩
    exact hall im (List.mem_filter.mpr ⟨him, by simp [hg]⟩)
  · rintro ⟨hd, hall⟩
    refine ⟨hd, fun im him => ?_⟩
    rcases List.mem_filter.mp him with ⟨him2, hg⟩
    exact hall im him2 (by simpa using hg)

theorem upsertGoat_snd_fields (goats : List GoatDoc) (now freshId : Nat)
    (body : AddGoatBody) :
    ((upsertGoat goats now freshId body).2).owner = body.owner ∧
    ((upsertGoat goats now freshId body).2).name = body.name ∧
    ((upsertGoat goats now freshId body).2).gender = body.gender ∧
    ((upsertGoat goats now freshId body).2).breed = body.breed ∧
    ((upsertGoat goats now freshId body).2).birthDate = body.birthDate ∧
    ((upsertGoat goats now freshId body).2).weight = body.weight ∧
    ((upsertGoat goats now freshId body).2).height = body.height ∧
    ((upsertGoat goats now freshId body).2).healthStatus = body.healthStatus ∧
    ((upsertGoat goats now freshId body).2).addedAt = now ∧
    ((upsertGoat goats now freshId body).2).rfidTag = body.rfidTag := by
  unfold upsertGoat
  cases hf : goats.find? (fun g => g.rfidTag == body.rfidTag) with
  | none => simp
  | some g0 =>
    have htag : g0.rfidTag = body.rfidTag := by
      have := List.find?_some hf
      simpa using this
    simp [goatSetFields, htag]

theorem upsertGoat_snd_id_of_found (goats : List GoatDoc) (now freshId : Nat)
    (body : AddGoatBody) (g0 : GoatDoc)
    (hf : goats.find? (fun g => g.rfidTag == body.rfidTag) = some g0) :
    ((upsertGoat goats now freshId body).2)._id = g0._id := by
  unfold upsertGoat
  rw [hf]
  rfl

theorem upsertGoat_filter (goats : List GoatDoc) (now freshId : Nat)
    (body : AddGoatBody)
    (hlen : (goats.filter (fun g => g.rfidTag == body.rfidTag)).length ≤ 1) :
    ((upsertGoat goats now freshId body).1).filter
        (fun g => g.rfidTag == body.rfidTag)
      = [(upsertGoat goats now freshId body).2] := by
  unfold upsertGoat
  cases hf : goats.find? (fun g => g.rfidTag == body.rfidTag) with
  | none =>
    exact filter_append_singleton_of_none _ _ (by simp) _ hf
  | some g0 =>
    have htag : g0.rfidTag = body.rfidTag := by
      have := List.find?_some hf
      simpa using this
    exact replaceFirst_filter _ _ (by simp [goatSetFields, htag]) _ hlen
      (by rw [hf]; rfl)

theorem addGoat_goats (db : DB) (now freshId : Nat) (body : AddGoatBody) :
    ((addGoat db now freshId body).1).goats
      = (upsertGoat db.goats now freshId body).1 := by
  unfold addGoat
  dsimp only
  split
  · rfl
  · rw [savePhotos_goats, cleanupImages_goats]

theorem addGoat_snd_goat (db : DB) (now freshId : Nat) (body : AddGoatBody) :
    (addGoat db now freshId body).2.goat
      = (upsertGoat db.goats now freshId body).2 := rfl

theorem addGoat_status (db : DB) (now freshId : Nat) (body : AddGoatBody) :
    (addGoat db now freshId body).2.status = 200 ∧
    (addGoat db now freshId body).2.message
      = "Goat record updated successfully!" := ⟨rfl, rfl⟩

theorem addGoat_images (db : DB) (now freshId : Nat) (body : AddGoatBody)
    (hph : body.photos ≠ []) :
    ((addGoat db now freshId body).1).images
      = (db.images.filter (fun im =>
          !(im.goatId == some ((upsertGoat db.goats now freshId body).2)._id)))
        ++ newRecords ((upsertGoat db.goats now freshId body).2)._id now 0
             body.photos := by
  unfold addGoat
  dsimp only
  rw [if_neg (by simpa using hph)]
  rw [savePhotos_images, cleanupImages_images]

theorem addGoat_disk_mem (db : DB) (now freshId : Nat) (body : AddGoatBody)
    (hph : body.photos ≠ []) (x : String) :
    x ∈ ((addGoat db now freshId body).1).disk ↔
      (x ∈ db.disk ∧ ∀ im ∈ db.images,
        im.goatId = some ((upsertGoat db.goats now freshId body).2)._id
          → x ≠ im.filename)
      ∨ x ∈ (newRecords ((upsertGoat db.goats now freshId body).2)._id now 0
          body.photos).map (fun r => r.filename) := by
  unfold addGoat
  dsimp only
  rw [if_neg (by simpa using hph)]
  rw [savePhotos_disk_mem, cleanupImages_disk_mem]

theorem mem_replaceFirst {α : Type} (p : α → Bool) (x : α) :
    ∀ l : List α, (l.find? p).isSome → x ∈ replaceFirst p x l := by
  intro l
  induction l with
  | nil => intro h; simp at h
  | cons y ys ih =>
    intro h
    by_cases hy : p y
    · simp [replaceFirst, hy]
    · have hy2 : p y = false := by simpa using hy
      rw [List.find?_cons_of_neg _ (by simp [hy2])] at h
      simp only [replaceFirst, hy2, Bool.false_eq_true, if_neg,
        not_false_eq_true]
      exact List.mem_cons_of_mem _ (ih h)

/-! ### Concrete fixtures for witnesses and counterexamples -/

/-- The empty store. -/
def emptyDB : DB := { users := [], goats := [], images := [], disk := [] }

/-- A registered demo user; the stored email is lowercase (schema setter)
and the stored password is the hash of "pw". -/
def demoUser : UserDoc :=
  { _id := 7, email := "a@b.com", password := bcryptHash "pw",
    farmName := "F", address := "X", createdAt := 0 }

/-- A store holding only `demoUser`. -/
def demoUserDB : DB :=
  { users := [demoUser], goats := [], images := [], disk := [] }

/-- A demo goat record. -/
def demoGoat : GoatDoc :=
  { _id := 1, owner := 7, rfidTag := "T1", name := "G1", gender := "Male",
    breed := "B", birthDate := 20200101, weight := 10, height := 20,
    healthStatus := ["Healthy"], price := 0, isForSale := false,
    isSold := false, addedAt := 5 }

/-! ### Claim theorems -/

/-- Claim C10: DELETE /delete-goat/:id answers with the same success
confirmation ("Goat deleted successfully") for every store and every
well-formed identifier, whether or not a matching goat exists; a
non-existent goat never yields a not-found error. -/
theorem C10_delete_always_reports_success (db : DB) (gid : Nat) :
    (deleteGoat db gid).2 = (200, "Goat deleted successfully") := rfl

/-- A for-sale goat listed earlier (listing timestamp `addedAt` 10),
stored first in natural order. -/
def goatOld : GoatDoc := { demoGoat with _id := 1, addedAt := 10, isForSale := true }

/-- A for-sale goat listed later (listing timestamp `addedAt` 20),
stored second in natural order. -/
def goatNew : GoatDoc :=
  { demoGoat with _id := 2, rfidTag := "T2", addedAt := 20, isForSale := true }

/-- A store with the two for-sale goats above, oldest listing first. -/
def feedDB : DB := { users := [], goats := [goatOld, goatNew], images := [], disk := [] }

/-- Claim C7 (code bug evaluation): the marketplace feed is NOT ordered
newest-listed-first. Both demo goats are for sale and the second was
listed later (`addedAt` 20 vs 10), yet the feed returns them in natural
store order, oldest listing first: the `$sort` key `listedAt` has no path
in the Goat schema (which defines `addedAt`), so the key is absent on
every document and the sort orders nothing, although the code comments
announce "SORT: Newest listed first". -/
theorem C7_feed_not_newest_listed_first :
    goatOld.isForSale = true ∧ goatNew.isForSale = true ∧
    goatOld.addedAt < goatNew.addedAt ∧ goatOld._id ≠ goatNew._id ∧
    (marketFeed feedDB).map (fun e => e.goat._id) = [goatOld._id, goatNew._id] := by
  decide

/-- Claim C9: PUT /update-goat/:id applies the entire request body: every
goat schema field present in the body — owner, rfidTag, name and addedAt
included, not only price/for-sale/sold — overwrites the stored value, for
an arbitrary body (no whitelist, and no validation: the body may carry
any values, e.g. a gender outside the schema enum). -/
theorem C9_update_applies_entire_body (db : DB) (gid : Nat)
    (b : UpdateGoatBody) (g0 : GoatDoc)
    (hfind : db.goats.find? (fun g => g._id == gid) = some g0) :
    ∃ g1 : GoatDoc, (updateGoat db gid b).2 = Except.ok g1 ∧
      g1 ∈ ((updateGoat db gid b).1).goats ∧
      (∀ v, b.owner = some v → g1.owner = v) ∧
      (∀ v, b.rfidTag = some v → g1.rfidTag = v) ∧
      (∀ v, b.name = some v → g1.name = v) ∧
      (∀ v, b.gender = some v → g1.gender = v) ∧
      (∀ v, b.breed = some v → g1.breed = v) ∧
      (∀ v, b.birthDate = some v → g1.birthDate = v) ∧
      (∀ v, b.weight = some v → g1.weight = v) ∧
      (∀ v, b.height = some v → g1.height = v) ∧
      (∀ v, b.healthStatus = some v → g1.healthStatus = v) ∧
      (∀ v, b.price = some v → g1.price = v) ∧
      (∀ v, b.isForSale = some v → g1.isForSale = v) ∧
      (∀ v, b.isSold = some v → g1.isSold = v) ∧
      (∀ v, b.addedAt = some v → g1.addedAt = v) := by
  refine ⟨applyUpdate g0 b, ?_, ?_,
    fun v hv => by simp [applyUpdate, hv],
    fun v hv => by simp [applyUpdate, hv],
    fun v hv => by simp [applyUpdate, hv],
    fun v hv => by simp [applyUpdate, hv],
    fun v hv => by simp [applyUpdate, hv],
    fun v hv => by simp [applyUpdate, hv],
    fun v hv => by simp [applyUpdate, hv],
    fun v hv => by simp [applyUpdate, hv],
    fun v hv => by simp [applyUpdate, hv],
    fun v hv => by simp [applyUpdate, hv],
    fun v hv => by simp [applyUpdate, hv],
    fun v hv => by simp [applyUpdate, hv],
    fun v hv => by simp [applyUpdate, hv]⟩
  · unfold updateGoat
    rw [hfind]
  · unfold updateGoat
    rw [hfind]
    exact mem_replaceFirst _ _ _ (by rw [hfind]; rfl)

/-- Body for the C9 witness: overwrites the identity-level fields and
carries an out-of-enum gender. -/
def c9Body : UpdateGoatBody :=
  { owner := some 99, rfidTag := some "NEW", name := some "Renamed",
    gender := some "NotAGender", addedAt := some 999 }

/-- Witness for C9 at a concrete store: the hypothesis holds and the
updated record carries every supplied field value. -/
theorem C9_witness :
    ∃ g1 : GoatDoc,
      (updateGoat { users := [], goats := [demoGoat], images := [], disk := [] }
          1 c9Body).2 = Except.ok g1 ∧
      g1.owner = 99 ∧ g1.rfidTag = "NEW" ∧ g1.name = "Renamed" ∧
      g1.gender = "NotAGender" ∧ g1.addedAt = 999 := by
  obtain ⟨g1, hok, _, howner, hrfid, hname, hgender, _, _, _, _, _, _, _, _, haddedAt⟩ :=
    C9_update_applies_entire_body
      { users := [], goats := [demoGoat], images := [], disk := [] }
      1 c9Body demoGoat (by decide)
  exact ⟨g1, hok, howner 99 rfl, hrfid "NEW" rfl, hname "Renamed" rfl,
    hgender "NotAGender" rfl, haddedAt 999 rfl⟩

/-- Claim C8: no endpoint response contains the stored password or its
hash: register and login delete the password key from the user object
before responding, and the farm directory and single-farm endpoints keep
it out of the selected fields, for every store and every request. -/
theorem C8_password_never_in_responses :
    (∀ (db : DB) (now freshId : Nat) (body : RegisterBody)
        (fields : List (String × Val)),
        (register db now freshId body).2 = .created fields →
          "password" ∉ fields.map Prod.fst) ∧
    (∀ (db : DB) (body : LoginBody) (fields : List (String × Val)),
        login db body = .ok fields → "password" ∉ fields.map Prod.fst) ∧
    (∀ (db : DB), ∀ f ∈ apiFarms db, "password" ∉ f.map Prod.fst) ∧
    (∀ (db : DB) (uid : Nat) (f : List (String × Val)),
        apiFarm db uid = .ok f → "password" ∉ f.map Prod.fst) := by
  refine ⟨?_, ?_, ?_, ?_⟩
  · intro db now freshId body fields h
    unfold register at h
    split at h
    · simp at h
    · split at h
      · simp at h
      · split at h
        · simp only [Prod.snd] at h
          cases h
          exact deleteKey_not_mem _ _
        · simp at h
  · intro db body fields h
    unfold login at h
    split at h
    · simp at h
    · split at h
      · cases h
        exact deleteKey_not_mem _ _
      · simp at h
  · intro db f hf
    rcases List.mem_map.mp hf with ⟨u, _, hu⟩
    rw [← hu]
    simp only [farmPublic, List.map_cons, List.map_nil]
    decide
  · intro db uid f h
    unfold apiFarm at h
    split at h
    · simp at h
    · cases h
      exact deleteKey_not_mem _ _

/-- Witness for C8: a concrete successful registration whose response
fields exclude the password key. -/
theorem C8_witness :
    (register emptyDB 0 7
        { email := some "A@B.com", password := some "pw",
          farmName := some "F", address := some "X" }).2
      = .created (deleteKey "password" (userToObject demoUser)) ∧
    "password" ∉ (deleteKey "password" (userToObject demoUser)).map Prod.fst := by
  refine ⟨by decide, ?_⟩
  exact C8_password_never_in_responses.1 emptyDB 0 7
    { email := some "A@B.com", password := some "pw",
      farmName := some "F", address := some "X" }
    (deleteKey "password" (userToObject demoUser)) (by decide)

/-- Claim C6: login behaviour in the three cases: unknown email (no
stored user matches the given email, case-insensitively) yields the
not-found error; a stored user whose hash does not match the plaintext
password yields the invalid-credentials error; a matching hash yields
the user record with the password field stripped. -/
theorem C6_login_three_cases (db : DB) (body : LoginBody) :
    ((∀ u ∈ db.users, u.email ≠ lowerString body.email) →
        login db body = .err 400 "User not found") ∧
    (∀ u, userFindOne db.users (some body.email) = some u →
      (bcryptHash body.password ≠ u.password →
          login db body = .err 400 "Invalid credentials") ∧
      (bcryptHash body.password = u.password →
          login db body = .ok (deleteKey "password" (userToObject u)) ∧
          "password" ∉ (deleteKey "password" (userToObject u)).map Prod.fst)) := by
  constructor
  · intro h
    have hnone : userFindOne db.users (some body.email) = none := by
      unfold userFindOne
      rw [List.find?_eq_none]
      intro u hu
      simp [h u hu]
    unfold login
    rw [hnone]
  · intro u hu
    constructor
    · intro hne
      unfold login
      rw [hu]
      dsimp only
      rw [if_neg (by simpa using hne)]
    · intro heq
      unfold login
      rw [hu]
      dsimp only
      rw [if_pos (by simpa using heq)]
      exact ⟨rfl, deleteKey_not_mem _ _⟩

/-- Witness for C6: the three cases at a concrete store, with the
stored-email comparison exercised case-insensitively. -/
theorem C6_witness :
    login demoUserDB { email := "A@B.com", password := "pw" }
        = .ok (deleteKey "password" (userToObject demoUser)) ∧
    login demoUserDB { email := "A@B.com", password := "wrong" }
        = .err 400 "Invalid credentials" ∧
    login demoUserDB { email := "nobody@b.com", password := "pw" }
        = .err 400 "User not found" := by
  refine ⟨?_, ?_, ?_⟩
  · exact (((C6_login_three_cases demoUserDB
      { email := "A@B.com", password := "pw" }).2 demoUser
        (by decide)).2 (by decide)).1
  · exact ((C6_login_three_cases demoUserDB
      { email := "A@B.com", password := "wrong" }).2 demoUser
        (by decide)).1 (by decide)
  · exact (C6_login_three_cases demoUserDB
      { email := "nobody@b.com", password := "pw" }).1 (by decide)

/-- A register body with the required password field missing (and no
conflicting email in the store it is aimed at). -/
def c5MissingBody : RegisterBody :=
  { email := some "a@b.com", password := none,
    farmName := some "F", address := some "X" }

/-- Claim C5, counterexample to the second half of the claim: a register
request missing a required field (here the password) does NOT fail with
an "invalid input" (4xx validation) error — the thrown error is caught by
the catch-all handler, which answers 500 "Server error.". -/
theorem C5_counterexample_missing_field_is_500 :
    (register emptyDB 0 0 c5MissingBody).2 = .err 500 "Server error." ∧
    ¬ (400 ≤ respStatus (register emptyDB 0 0 c5MissingBody).2 ∧
       respStatus (register emptyDB 0 0 c5MissingBody).2 < 500) := by
  exact ⟨by decide, by decide⟩

/-- Claim C5 as amended: (a) a register request whose email already
belongs to a stored user, compared case-insensitively, fails with the
400 "Email already exists." conflict and leaves the store unchanged;
(b) a register request missing a required field (email, password, farm
name or address), when the duplicate-email lookup matches nothing, fails
with the generic 500 "Server error." (not a 4xx invalid-input error) and
leaves the store unchanged. -/
theorem C5_amended_register_errors (db : DB) (now freshId : Nat)
    (body : RegisterBody) :
    (∀ e, body.email = some e → ∀ u ∈ db.users, u.email = lowerString e →
        (register db now freshId body).2 = .err 400 "Email already exists." ∧
        (register db now freshId body).1 = db) ∧
    (userFindOne db.users body.email = none →
      (body.email = none ∨ body.password = none ∨ body.farmName = none ∨
        body.address = none) →
      (register db now freshId body).2 = .err 500 "Server error." ∧
      (register db now freshId body).1 = db) := by
  constructor
  · intro e hemail u hu hue
    have hsome : (db.users.find? (fun v => v.email == lowerString e)).isSome := by
      rw [List.find?_isSome]
      exact ⟨u, hu, by simp [hue]⟩
    rcases Option.isSome_iff_exists.mp hsome with ⟨u2, hu2⟩
    have hfind : userFindOne db.users body.email = some u2 := by
      unfold userFindOne
      rw [hemail]
      exact hu2
    unfold register
    rw [hfind]
    exact ⟨rfl, rfl⟩
  · intro hnone hmiss
    unfold register
    rw [hnone]
    cases hpw : body.password with
    | none => exact ⟨rfl, rfl⟩
    | some pw =>
      cases hem : body.email with
      | none => exact ⟨rfl, rfl⟩
      | some e =>
        cases hfn : body.farmName with
        | none =>
          cases had : body.address with
          | none => exact ⟨rfl, rfl⟩
          | some ad => exact ⟨rfl, rfl⟩
        | some fn =>
          cases had : body.address with
          | none => exact ⟨rfl, rfl⟩
          | some ad =>
            rcases hmiss with h | h | h | h <;>
              simp [hem, hpw, hfn, had] at h

/-- Witness for the amended C5: both branches at concrete inputs — a
duplicate registration differing only in case fails with the conflict
and leaves the store as it was, and a missing-password registration
against the one-user store (fresh email) fails with the 500. -/
theorem C5_witness :
    ((register demoUserDB 3 9
        { email := some "A@B.com", password := some "pw2",
          farmName := some "G", address := some "Y" }).2
      = .err 400 "Email already exists." ∧
     (register demoUserDB 3 9
        { email := some "A@B.com", password := some "pw2",
          farmName := some "G", address := some "Y" }).1 = demoUserDB) ∧
    ((register demoUserDB 3 9
        { email := some "new@b.com", password := none,
          farmName := some "G", address := some "Y" }).2
      = .err 500 "Server error." ∧
     (register demoUserDB 3 9
        { email := some "new@b.com", password := none,
          farmName := some "G", address := some "Y" }).1 = demoUserDB) := by
  constructor
  · exact (C5_amended_register_errors demoUserDB 3 9
      { email := some "A@B.com", password := some "pw2",
        farmName := some "G", address := some "Y" }).1
      "A@B.com" rfl demoUser (by decide) (by decide)
  · exact (C5_amended_register_errors demoUserDB 3 9
      { email := some "new@b.com", password := none,
        farmName := some "G", address := some "Y" }).2
      (by decide) (Or.inr (Or.inl rfl))

/-- Claim C4: after DELETE /delete-goat/:id with identifier `gid` (at
most one stored goat carries a given id, as ids are unique), no Image
record referencing `gid` remains, and GET /get-goat/:gid afterwards
answers 404 "Goat not found". -/
theorem C4_delete_cascades_and_get_404 (db : DB) (gid : Nat)
    (huniq : (db.goats.filter (fun g => g._id == gid)).length ≤ 1) :
    (∀ im ∈ ((deleteGoat db gid).1).images, im.goatId ≠ some gid) ∧
    getGoat ((deleteGoat db gid).1) gid = .error (404, "Goat not found") := by
  constructor
  · intro im him
    simp only [deleteGoat] at him
    have := (List.mem_filter.mp him).2
    simp only [Bool.not_eq_true'] at this
    simpa using this
  · unfold getGoat
    have hnone : (((deleteGoat db gid).1).goats.find?
        (fun g => g._id == gid)) = none := by
      show ((removeFirst (fun g => g._id == gid) db.goats).find? _) = none
      exact removeFirst_find?_none _ _ huniq
    rw [hnone]

/-- A store for the C4 witness: one goat (id 1) with one Image record
referencing it and one stray Image record. -/
def c4DB : DB :=
  { users := [], goats := [demoGoat],
    images := [ { goatId := some 1, filename := "a.jpg",
                  imageUrl := "uploads/a.jpg", uploadedAt := 1 },
                { goatId := some 2, filename := "b.jpg",
                  imageUrl := "uploads/b.jpg", uploadedAt := 1 } ],
    disk := ["a.jpg", "b.jpg"] }

/-- Witness for C4 at the concrete store. -/
theorem C4_witness :
    (∀ im ∈ ((deleteGoat c4DB 1).1).images, im.goatId ≠ some 1) ∧
    getGoat ((deleteGoat c4DB 1).1) 1 = .error (404, "Goat not found") :=
  C4_delete_cascades_and_get_404 c4DB 1 (by decide)

/-- Claim C1: starting from any store holding at most one goat with tag
`t` (the unique index invariant), two successive POST /add-goat requests
carrying tag `t` leave exactly one stored goat record with tag `t`, whose
mutable fields equal the second request values and whose addedAt is the
second request time. -/
theorem C1_upsert_one_record_second_values (db : DB) (t : String)
    (now1 now2 fresh1 fresh2 : Nat) (b1 b2 : AddGoatBody)
    (ht1 : b1.rfidTag = t) (ht2 : b2.rfidTag = t)
    (huniq : (db.goats.filter (fun g => g.rfidTag == t)).length ≤ 1) :
    ∃ g : GoatDoc,
      (((addGoat (addGoat db now1 fresh1 b1).1 now2 fresh2 b2).1).goats.filter
          (fun g => g.rfidTag == t)) = [g] ∧
      g.owner = b2.owner ∧ g.name = b2.name ∧ g.gender = b2.gender ∧
      g.breed = b2.breed ∧ g.birthDate = b2.birthDate ∧
      g.weight = b2.weight ∧ g.height = b2.height ∧
      g.healthStatus = b2.healthStatus ∧ g.addedAt = now2 := by
  subst ht1
  have h1 : ((addGoat db now1 fresh1 b1).1).goats
      = (upsertGoat db.goats now1 fresh1 b1).1 := addGoat_goats _ _ _ _
  have hf1 := upsertGoat_filter db.goats now1 fresh1 b1 huniq
  have hlen2 : (((addGoat db now1 fresh1 b1).1).goats.filter
      (fun g => g.rfidTag == b2.rfidTag)).length ≤ 1 := by
    rw [h1, ht2, hf1]
    simp
  have h2 : ((addGoat (addGoat db now1 fresh1 b1).1 now2 fresh2 b2).1).goats
      = (upsertGoat ((addGoat db now1 fresh1 b1).1).goats now2 fresh2 b2).1 :=
    addGoat_goats _ _ _ _
  have hf2 := upsertGoat_filter ((addGoat db now1 fresh1 b1).1).goats
    now2 fresh2 b2 hlen2
  obtain ⟨ho, hn, hg, hb, hbd, hw, hh, hhs, ha, _⟩ :=
    upsertGoat_snd_fields ((addGoat db now1 fresh1 b1).1).goats now2 fresh2 b2
  refine ⟨(upsertGoat ((addGoat db now1 fresh1 b1).1).goats now2 fresh2 b2).2,
    ?_, ho, hn, hg, hb, hbd, hw, hh, hhs, ha⟩
  rw [h2, ← ht2]
  exact hf2

/-- Two add-goat bodies carrying the same tag with different field
values, for the C1 witness. -/
def c1Body1 : AddGoatBody :=
  { owner := 7, rfidTag := "T1", name := "G1", gender := "Male",
    breed := "B", birthDate := 20200101, weight := 10, height := 20,
    healthStatus := ["Healthy"], photos := [] }

/-- Second request for the C1 witness: same tag, changed weight and
owner. -/
def c1Body2 : AddGoatBody :=
  { owner := 8, rfidTag := "T1", name := "G1b", gender := "Female",
    breed := "B2", birthDate := 20210202, weight := 15, height := 21,
    healthStatus := ["Healthy", "Pregnant"], photos := [] }

/-- Witness for C1 at the empty store. -/
theorem C1_witness :
    ∃ g : GoatDoc,
      (((addGoat (addGoat emptyDB 1 10 c1Body1).1 2 11 c1Body2).1).goats.filter
          (fun g => g.rfidTag == "T1")) = [g] ∧
      g.owner = c1Body2.owner ∧ g.name = c1Body2.name ∧
      g.gender = c1Body2.gender ∧ g.breed = c1Body2.breed ∧
      g.birthDate = c1Body2.birthDate ∧ g.weight = c1Body2.weight ∧
      g.height = c1Body2.height ∧ g.healthStatus = c1Body2.healthStatus ∧
      g.addedAt = 2 :=
  C1_upsert_one_record_second_values emptyDB "T1" 1 2 10 11 c1Body1 c1Body2
    rfl rfl (by decide)

/-- Claim C2: for a goat already stored under the request tag, with any
number of existing Image records (and any other images in the store), a
POST /add-goat carrying a non-empty batch of well-formed photo payloads
whose generated filenames are fresh leaves exactly one Image record per
batch entry referencing the goat, and every blob named by a previously
linked Image record is gone from disk. -/
theorem C2_photos_replace_images_and_blobs (db : DB) (now fresh : Nat)
    (b : AddGoatBody) (g0 : GoatDoc)
    (hfound : db.goats.find? (fun g => g.rfidTag == b.rfidTag) = some g0)
    (hph : b.photos ≠ [])
    (hwf : ∀ p ∈ b.photos, (dataUrlMatch p).isSome = true)
    (hfresh : ∀ im ∈ db.images, im.goatId = some g0._id →
        ∀ i, i < b.photos.length → im.filename ≠ mkFilename now g0._id i) :
    ((((addGoat db now fresh b).1).images.filter
        (fun im => im.goatId == some g0._id)).length = b.photos.length) ∧
    (∀ im ∈ db.images, im.goatId = some g0._id →
        im.filename ∉ ((addGoat db now fresh b).1).disk) := by
  have hid : ((upsertGoat db.goats now fresh b).2)._id = g0._id :=
    upsertGoat_snd_id_of_found _ _ _ _ _ hfound
  constructor
  · rw [addGoat_images db now fresh b hph, hid, List.filter_append]
    have hfirst : (db.images.filter
        (fun im => !(im.goatId == some g0._id))).filter
          (fun im => im.goatId == some g0._id) = [] := by
      apply List.filter_eq_nil_iff.mpr
      intro a ha
      have ha2 := (List.mem_filter.mp ha).2
      simp only [Bool.not_eq_true'] at ha2
      simp [ha2]
    have hsecond : (newRecords g0._id now 0 b.photos).filter
        (fun im => im.goatId == some g0._id)
          = newRecords g0._id now 0 b.photos := by
      apply List.filter_eq_self.mpr
      intro r hr
      simp [newRecords_goatId g0._id now b.photos 0 r hr]
    rw [hfirst, hsecond, List.nil_append, newRecords_length]
    exact List.countP_eq_length.mpr (fun p hp => by simp [hwf p hp])
  · intro im him hgi hmem
    rw [addGoat_disk_mem db now fresh b hph, hid] at hmem
    rcases hmem with ⟨_, hall⟩ | hnew
    · exact hall im him hgi rfl
    · rcases List.mem_map.mp hnew with ⟨r, hr, hfn⟩
      rcases mem_newRecords _ _ _ _ _ hr with ⟨j, hj, _, hrj⟩
      apply hfresh im him hgi j hj
      rw [← hfn, hrj]
      simp [mkImageDoc]

/-- C2 witness store: the demo goat (id 1, tag "T1") with three existing
Image records whose blobs are on disk. -/
def c2DB : DB :=
  { users := [], goats := [demoGoat],
    images := [ { goatId := some 1, filename := "old1.jpg",
                  imageUrl := "uploads/old1.jpg", uploadedAt := 1 },
                { goatId := some 1, filename := "old2.jpg",
                  imageUrl := "uploads/old2.jpg", uploadedAt := 2 },
                { goatId := some 1, filename := "old3.jpg",
                  imageUrl := "uploads/old3.jpg", uploadedAt := 3 } ],
    disk := ["old1.jpg", "old2.jpg", "old3.jpg"] }

/-- C2 witness request: same tag, two well-formed photo payloads. -/
def c2Body : AddGoatBody :=
  { owner := 7, rfidTag := "T1", name := "G1", gender := "Male",
    breed := "B", birthDate := 20200101, weight := 11, height := 20,
    healthStatus := ["Healthy"],
    photos := ["data:image/jpeg;base64,AAAA", "data:image/png;base64,BBBB"] }

/-- Witness for C2: three old images, two new payloads — exactly two
records afterwards and the three old blobs gone. -/
theorem C2_witness :
    ((((addGoat c2DB 100 50 c2Body).1).images.filter
        (fun im => im.goatId == some demoGoat._id)).length
      = c2Body.photos.length) ∧
    (∀ im ∈ c2DB.images, im.goatId = some demoGoat._id →
        im.filename ∉ ((addGoat c2DB 100 50 c2Body).1).disk) :=
  C2_photos_replace_images_and_blobs c2DB 100 50 c2Body demoGoat
    (by decide) (by decide) (by decide) (by decide)

/-- Claim C3: in any POST /add-goat photo batch, entries that fail the
data-URL pattern are skipped silently: the request still answers 200, the
records referencing the goat afterwards number exactly the well-formed
entries, every well-formed entry has its record stored and its blob on
disk, and nothing on disk or in the image store is new except what a
well-formed entry produced. -/
theorem C3_malformed_photos_skipped (db : DB) (now fresh : Nat)
    (b : AddGoatBody) (hph : b.photos ≠ []) :
    ((addGoat db now fresh b).2.status = 200 ∧
     (addGoat db now fresh b).2.message = "Goat record updated successfully!") ∧
    (((addGoat db now fresh b).1).images.filter
        (fun im => im.goatId == some ((addGoat db now fresh b).2.goat)._id)).length
      = b.photos.countP (fun p => (dataUrlMatch p).isSome) ∧
    (∀ j, ∀ hj : j < b.photos.length,
      (dataUrlMatch (b.photos.get ⟨j, hj⟩)).isSome →
        mkImageDoc now ((addGoat db now fresh b).2.goat)._id j
            ∈ ((addGoat db now fresh b).1).images ∧
        mkFilename now ((addGoat db now fresh b).2.goat)._id j
            ∈ ((addGoat db now fresh b).1).disk) ∧
    (∀ x ∈ ((addGoat db now fresh b).1).disk, x ∈ db.disk ∨
      ∃ j, ∃ hj : j < b.photos.length,
        (dataUrlMatch (b.photos.get ⟨j, hj⟩)).isSome ∧
          x = mkFilename now ((addGoat db now fresh b).2.goat)._id j) ∧
    (∀ im ∈ ((addGoat db now fresh b).1).images, im ∈ db.images ∨
      ∃ j, ∃ hj : j < b.photos.length,
        (dataUrlMatch (b.photos.get ⟨j, hj⟩)).isSome ∧
          im = mkImageDoc now ((addGoat db now fresh b).2.goat)._id j) := by
  have hgoat : (addGoat db now fresh b).2.goat
      = (upsertGoat db.goats now fresh b).2 := addGoat_snd_goat _ _ _ _
  rw [hgoat]
  set gid := ((upsertGoat db.goats now fresh b).2)._id with hgid
  refine ⟨addGoat_status db now fresh b, ?_, ?_, ?_, ?_⟩
  · rw [addGoat_images db now fresh b hph, List.filter_append]
    have hfirst : (db.images.filter
        (fun im => !(im.goatId == some gid))).filter
          (fun im => im.goatId == some gid) = [] := by
      apply List.filter_eq_nil_iff.mpr
      intro a ha
      have ha2 := (List.mem_filter.mp ha).2
      simp only [Bool.not_eq_true'] at ha2
      simp [ha2]
    have hsecond : (newRecords gid now 0 b.photos).filter
        (fun im => im.goatId == some gid) = newRecords gid now 0 b.photos := by
      apply List.filter_eq_self.mpr
      intro r hr
      simp [newRecords_goatId gid now b.photos 0 r hr]
    rw [hfirst, hsecond, List.nil_append, newRecords_length]
  · intro j hj hwfj
    constructor
    · rw [addGoat_images db now fresh b hph]
      apply List.mem_append_right
      have := newRecords_all_mem gid now b.photos 0 j hj hwfj
      rwa [Nat.zero_add] at this
    · rw [addGoat_disk_mem db now fresh b hph]
      right
      apply List.mem_map.mpr
      refine ⟨mkImageDoc now gid j, ?_, rfl⟩
      have := newRecords_all_mem gid now b.photos 0 j hj hwfj
      rwa [Nat.zero_add] at this
  · intro x hx
    rw [addGoat_disk_mem db now fresh b hph] at hx
    rcases hx with ⟨hd, _⟩ | hnew
    · exact Or.inl hd
    · rcases List.mem_map.mp hnew with ⟨r, hr, hfn⟩
      rcases mem_newRecords _ _ _ _ _ hr with ⟨j, hj, hwfj, hrj⟩
      refine Or.inr ⟨j, hj, hwfj, ?_⟩
      rw [← hfn, hrj]
      simp [mkImageDoc]
  · intro im him
    rw [addGoat_images db now fresh b hph] at him
    rcases List.mem_append.mp him with hold | hnew
    · exact Or.inl (List.mem_filter.mp hold).1
    · rcases mem_newRecords _ _ _ _ _ hnew with ⟨j, hj, hwfj, hrj⟩
      refine Or.inr ⟨j, hj, hwfj, ?_⟩
      rw [hrj]
      simp

/-- C3 witness request: a malformed first entry and a well-formed second
entry in the same batch. -/
def c3Body : AddGoatBody :=
  { owner := 7, rfidTag := "T9", name := "G9", gender := "Female",
    breed := "B", birthDate := 20200101, weight := 9, height := 18,
    healthStatus := ["Healthy"],
    photos := ["not-a-data-url", "data:image/png;base64,CCCC"] }

/-- Witness for C3: the mixed batch succeeds and stores exactly one
record (for the single well-formed entry). -/
theorem C3_witness :
    c3Body.photos ≠ [] ∧
    (addGoat emptyDB 100 50 c3Body).2.status = 200 ∧
    (((addGoat emptyDB 100 50 c3Body).1).images.filter
        (fun im => im.goatId == some ((addGoat emptyDB 100 50 c3Body).2.goat)._id)).length
      = c3Body.photos.countP (fun p => (dataUrlMatch p).isSome) := by
  refine ⟨by decide, ?_, ?_⟩
  · exact (C3_malformed_photos_skipped emptyDB 100 50 c3Body (by decide)).1.1
  · exact (C3_malformed_photos_skipped emptyDB 100 50 c3Body (by decide)).2.1
